import Mathlib

/-!
Shallow embedding of the email-organizer repository.

Namespace `GmailRules` embeds `scripts/gmail_rules_processor.py`: the rule
data model, the string/date predicate evaluators, the rule-set resolver
`apply_rules`, and the action dispatcher `execute_actions` together with
`get_or_create_label`.  Namespace `GmailFetch` embeds the paging and
truncation logic of `fetch_emails` from `gmail_fetch.py`.

Modelling conventions:
* Python `int` is `Int`; timestamps and durations are integer seconds
  (`datetime.fromisoformat` is an explicit parameter `fromisoformat :
  String → Int`, and `datetime.now(timezone.utc)` is a parameter `now :
  Int`, since the source samples the wall clock there).
* Python exceptions are `Except` / `Option` results; the pydantic
  `@validate_call(validate_return=True)` decorator on
  `get_or_create_label` (annotated `-> str`) is modelled explicitly: a
  `None` return value raises a `ValidationError`.
* Python string helpers (`str.lower`, `str.split()`, `str.startswith`,
  `in`, `int(...)`) are modelled by structural recursion over character
  lists (ASCII case folding, ASCII digits), so every definition evaluates
  by kernel reduction.
-/

deriving instance DecidableEq for Except

namespace GmailRules

/-- Helper for `pySplit`: walks the character list, keeping the current
word reversed in `acc`, emitting a word at each whitespace run. -/
def splitWsAux : List Char → List Char → List String
  | [], acc => if acc.isEmpty then [] else [String.mk acc.reverse]
  | c :: cs, acc =>
    if c.isWhitespace then
      if acc.isEmpty then splitWsAux cs []
      else String.mk acc.reverse :: splitWsAux cs []
    else splitWsAux cs (c :: acc)

/-- Model of Python `str.split()` with no argument: split on runs of
whitespace, discarding empty pieces. -/
def pySplit (s : String) : List String := splitWsAux s.toList []

/-- Model of Python `str.lower()` (ASCII case folding). -/
def pyLower (s : String) : String := String.mk (s.toList.map Char.toLower)

/-- Boolean test that `p` is a prefix of `l`. -/
def listStartsWith : List Char → List Char → Bool
  | _, [] => true
  | [], _ :: _ => false
  | c :: cs, p :: ps => c == p && listStartsWith cs ps

/-- Boolean test that `n` occurs as a contiguous sublist of the second
argument. -/
def containsSub (n : List Char) : List Char → Bool
  | [] => n.isEmpty
  | c :: cs => listStartsWith (c :: cs) n || containsSub n cs

/-- Model of the Python expression `needle in hay` on strings: substring
containment. -/
def py_in (needle hay : String) : Bool := containsSub needle.toList hay.toList

/-- Model of Python `s.startswith(t)`. -/
def pyStartswith (s t : String) : Bool := listStartsWith s.toList t.toList

/-- Numeric value of an ASCII digit string. -/
def digitsToNat (ds : List Char) : Nat :=
  ds.foldl (fun n c => 10 * n + (c.toNat - 48)) 0

/-- Model of Python `int(s)` on the already-whitespace-free pieces produced
by `pySplit`: an optional sign followed by ASCII digits; anything else
raises `ValueError`, modelled as `none`. -/
def pyParseInt (s : String) : Option Int :=
  match s.toList with
  | [] => none
  | '-' :: ds =>
    if !ds.isEmpty && ds.all Char.isDigit then some (-(digitsToNat ds : Int)) else none
  | '+' :: ds =>
    if !ds.isEmpty && ds.all Char.isDigit then some (digitsToNat ds : Int) else none
  | ds =>
    if ds.all Char.isDigit then some (digitsToNat ds : Int) else none

/-- The `FieldName` enum of the source. -/
inductive FieldName where
  | sender
  | recipient
  | subject
  | message
  | received_time
deriving DecidableEq

/-- The `StringPredicate` enum of the source. -/
inductive StringPredicate where
  | contains
  | does_not_contain
  | equals
  | does_not_equal
deriving DecidableEq

/-- The `DatePredicate` enum of the source. -/
inductive DatePredicate where
  | is_less_than
  | is_greater_than
deriving DecidableEq

/-- The `RulePredicate` enum of the source: the combine mode of a rule
set. -/
inductive RulePredicate where
  | all
  | any
deriving DecidableEq

/-- The `ActionType` enum of the source. -/
inductive ActionType where
  | mark_as_read
  | mark_as_unread
  | move_to_mailbox
deriving DecidableEq

/-- The `Union[StringPredicate, DatePredicate]` type of the `predicate`
field of `Rule`. -/
inductive PredicateUnion where
  | strP (p : StringPredicate)
  | dateP (p : DatePredicate)
deriving DecidableEq

/-- The `Rule` pydantic model: the model itself places no compatibility
constraint between `field_name` and `predicate`. -/
structure Rule where
  field_name : FieldName
  predicate : PredicateUnion
  value : String
deriving DecidableEq

/-- The `Action` pydantic model; `folder_name` defaults to `None`. -/
structure Action where
  action_type : ActionType
  folder_name : Option String
deriving DecidableEq

/-- The `RuleSet` pydantic model. -/
structure RuleSet where
  rules : List Rule
  rule_predicate : RulePredicate
  actions : List Action
deriving DecidableEq

/-- The `Email` pydantic model of the rules processor; `received_time` is a
string (an ISO timestamp) there. -/
structure Email where
  message_id : String
  sender : String
  recipient : String
  message : String
  received_time : String
  subject : String
deriving DecidableEq

/-- The `ValueError` / `IndexError` exceptions the evaluators can raise. -/
inductive EvalError where
  | invalidStringPredicate (p : PredicateUnion)
  | invalidDatePredicate (p : PredicateUnion)
  | invalidTimeUnit (u : String)
  | invalidIntLiteral (s : String)
  | indexError
deriving DecidableEq

/-- Model of `getattr(email, rule.field_name)`: the dynamic attribute
lookup, as a total match over the closed enum. -/
def getField (email : Email) (fn : FieldName) : String :=
  match fn with
  | .sender => email.sender
  | .recipient => email.recipient
  | .subject => email.subject
  | .message => email.message
  | .received_time => email.received_time

/-- Seconds in one `timedelta(days=1)`. -/
def secondsPerDay : Int := 86400

/-- Lines 107-116 of `evaluate_date_rule`: split the comparand, parse
`int(value_parts[0])`, read `value_parts[1]`, and convert the unit to a
`timedelta` (in seconds).  Python evaluates `value_parts[0]` and `int`
before indexing `value_parts[1]`, so a one-element comparand raises
`ValueError` when the single piece is not an integer and `IndexError`
otherwise; this order is preserved. -/
def parse_duration (value : String) : Except EvalError Int :=
  match pySplit value with
  | [] => .error .indexError
  | amount_str :: rest =>
    match pyParseInt amount_str with
    | none => .error (.invalidIntLiteral amount_str)
    | some amount =>
      match rest with
      | [] => .error .indexError
      | u :: _ =>
        if pyStartswith u "day" then .ok (amount * secondsPerDay)
        else if pyStartswith u "month" then .ok (amount * 30 * secondsPerDay)
        else .error (.invalidTimeUnit u)

/-- `evaluate_date_rule(rule, field_value)`: `fromisoformat` stands for
`datetime.fromisoformat` and `now` for `datetime.now(timezone.utc)`,
both in integer seconds. -/
def evaluate_date_rule (fromisoformat : String → Int) (now : Int)
    (rule : Rule) (field_value : String) : Except EvalError Bool :=
  let email_date := fromisoformat field_value
  let current_date := now
  match parse_duration rule.value with
  | .error e => .error e
  | .ok delta =>
    match rule.predicate with
    | .dateP .is_less_than => .ok (decide (current_date - email_date < delta))
    | .dateP .is_greater_than => .ok (decide (current_date - email_date > delta))
    | .strP _ => .error (.invalidDatePredicate rule.predicate)

/-- `evaluate_string_rule(rule, field_value)`: both sides are lower-cased;
a `DatePredicate` value fails every comparison against the four
`StringPredicate` members and reaches the `raise ValueError` branch. -/
def evaluate_string_rule (rule : Rule) (field_value : String) :
    Except EvalError Bool :=
  match rule.predicate with
  | .strP .contains => .ok (py_in (pyLower rule.value) (pyLower field_value))
  | .strP .does_not_contain => .ok (!py_in (pyLower rule.value) (pyLower field_value))
  | .strP .equals => .ok (pyLower rule.value == pyLower field_value)
  | .strP .does_not_equal => .ok (pyLower rule.value != pyLower field_value)
  | .dateP _ => .error (.invalidStringPredicate rule.predicate)

/-- `evaluate_rule(rule, email)`: dispatch on the field. -/
def evaluate_rule (fromisoformat : String → Int) (now : Int)
    (rule : Rule) (email : Email) : Except EvalError Bool :=
  let field_value := getField email rule.field_name
  if rule.field_name = FieldName.received_time then
    evaluate_date_rule fromisoformat now rule field_value
  else
    evaluate_string_rule rule field_value

/-- The list comprehension `[evaluate_rule(rule, email) for rule in
ruleset.rules]`: left to right, stopping at the first raised exception. -/
def eval_rules (fromisoformat : String → Int) (now : Int)
    (rules : List Rule) (email : Email) : Except EvalError (List Bool) :=
  match rules with
  | [] => .ok []
  | r :: rest =>
    match evaluate_rule fromisoformat now r email with
    | .error e => .error e
    | .ok b =>
      match eval_rules fromisoformat now rest email with
      | .error e => .error e
      | .ok bs => .ok (b :: bs)

/-- `apply_rules(ruleset, email)`: evaluate every rule, then combine with
`all` or `any`; falls through to `return []` when not matched. -/
def apply_rules (fromisoformat : String → Int) (now : Int)
    (ruleset : RuleSet) (email : Email) : Except EvalError (List Action) :=
  match eval_rules fromisoformat now ruleset.rules email with
  | .error e => .error e
  | .ok results =>
    match ruleset.rule_predicate with
    | .all => if results.all (fun b => b) then .ok ruleset.actions else .ok []
    | .any => if results.any (fun b => b) then .ok ruleset.actions else .ok []

/-- A Gmail label record `{id, name}` as returned by
`labels().list()` / `labels().create()`. -/
structure GmailLabel where
  id : String
  name : String
deriving DecidableEq

/-- A provider-side failure (any exception raised by a service call). -/
structure ProviderError where
  msg : String
deriving DecidableEq

/-- The slice of the Gmail service the dispatcher uses: the outcome of
`labels().list()` and of `labels().create(name)`; `messages().modify`
calls always succeed and are recorded in the dispatcher's trace. -/
structure MailService where
  list_labels : Except ProviderError (List GmailLabel)
  create_label : String → Except ProviderError GmailLabel

/-- The exception pydantic's `@validate_call(validate_return=True)`
decorator raises when an argument or a return value fails validation
against its annotation. -/
inductive PyError where
  | validationError
deriving DecidableEq

/-- `get_or_create_label(service, label_name)` before the decorator: the
whole body is wrapped in `try`, and any provider exception is logged and
turned into a `None` return (here `none`).  The label list is scanned in
order; on no match a creation is attempted. -/
def get_or_create_label (service : MailService) (label_name : String) :
    Option String :=
  match service.list_labels with
  | .error _ => none
  | .ok labels =>
    match labels.find? (fun l => l.name == label_name) with
    | some l => some l.id
    | none =>
      match service.create_label label_name with
      | .ok l => some l.id
      | .error _ => none

/-- The `@validate_call(validate_return=True)` wrapper around
`get_or_create_label`, whose annotation is `-> str`: a `None` return
value is not a `str`, so pydantic raises a `ValidationError`. -/
def get_or_create_label_checked (service : MailService)
    (label_name : String) : Except PyError String :=
  match get_or_create_label service label_name with
  | some i => .ok i
  | none => .error .validationError

/-- The body of one `messages().modify(userId, id, body)` call. -/
inductive LabelChange where
  | removeLabels (labels : List String)
  | addLabels (labels : List String)
deriving DecidableEq

/-- One issued `messages().modify` call: the message id and the body. -/
structure ModifyCall where
  id : String
  body : LabelChange
deriving DecidableEq

/-- `execute_actions(service, email, actions)`: walks the action list in
order and issues `modify` calls; the returned pair is the ordered trace
of issued calls and the exception, if one was raised (which aborts the
remaining actions).  For `move_to_mailbox`, a `folder_name` of `None`
fails `get_or_create_label`'s `label_name: str` argument validation, and
a `None` label id fails its return validation; either raises before the
`modify` call. -/
def execute_actions (service : MailService) (email : Email)
    (actions : List Action) : List ModifyCall × Option PyError :=
  match actions with
  | [] => ([], none)
  | action :: rest =>
    match action.action_type with
    | .mark_as_read =>
      let r := execute_actions service email rest
      (⟨email.message_id, .removeLabels ["UNREAD"]⟩ :: r.1, r.2)
    | .mark_as_unread =>
      let r := execute_actions service email rest
      (⟨email.message_id, .addLabels ["UNREAD"]⟩ :: r.1, r.2)
    | .move_to_mailbox =>
      match action.folder_name with
      | none => ([], some .validationError)
      | some fname =>
        match get_or_create_label_checked service fname with
        | .error e => ([], some e)
        | .ok label_id =>
          let r := execute_actions service email rest
          (⟨email.message_id, .addLabels [label_id]⟩ :: r.1, r.2)

/-- The rule-set resolver's combination step, as a function of the list of
predicate outcomes. -/
def ruleset_matches (rp : RulePredicate) (results : List Bool) : Bool :=
  match rp with
  | .all => results.all fun b => b
  | .any => results.any fun b => b

lemma listStartsWith_iff (l p : List Char) : listStartsWith l p = true ↔ p <+: l := by
  induction p generalizing l with
  | nil => cases l <;> simp [listStartsWith]
  | cons p ps ih =>
    cases l with
    | nil => simp [listStartsWith]
    | cons c cs =>
      simp only [listStartsWith, Bool.and_eq_true, beq_iff_eq, ih,
        List.cons_prefix_cons]
      exact and_congr_left fun _ => eq_comm

lemma containsSub_iff (n h : List Char) : containsSub n h = true ↔ n <:+: h := by
  induction h with
  | nil => cases n <;> simp [containsSub]
  | cons c cs ih =>
    simp [containsSub, listStartsWith_iff, ih, List.infix_cons_iff]

lemma py_in_iff (a b : String) : py_in a b = true ↔ a.toList <:+: b.toList :=
  containsSub_iff a.toList b.toList

lemma evaluate_rule_of_ne_received_time (f : String → Int) (now : Int)
    (r : Rule) (email : Email) (h : r.field_name ≠ FieldName.received_time) :
    evaluate_rule f now r email = evaluate_string_rule r (getField email r.field_name) := by
  unfold evaluate_rule
  rw [if_neg h]

lemma eval_rules_clock_free (f1 f2 : String → Int) (n1 n2 : Int) (email : Email) :
    ∀ (rules : List Rule), (∀ r ∈ rules, r.field_name ≠ FieldName.received_time) →
      eval_rules f1 n1 rules email = eval_rules f2 n2 rules email := by
  intro rules
  induction rules with
  | nil => intro _; rfl
  | cons r rest ih =>
    intro h
    have hr : r.field_name ≠ FieldName.received_time := h r (List.mem_cons_self r rest)
    have hrest := ih fun x hx => h x (List.mem_cons_of_mem r hx)
    have e1 : evaluate_rule f1 n1 r email = evaluate_rule f2 n2 r email := by
      rw [evaluate_rule_of_ne_received_time _ _ _ _ hr,
        evaluate_rule_of_ne_received_time _ _ _ _ hr]
    unfold eval_rules
    rw [e1, hrest]

lemma eval_rules_ok_iff (f : String → Int) (now : Int) (email : Email) :
    ∀ (rules : List Rule) (results : List Bool),
      eval_rules f now rules email = Except.ok results →
      (((results.all fun b => b) = true ↔
          ∀ r ∈ rules, evaluate_rule f now r email = Except.ok true) ∧
        ((results.any fun b => b) = true ↔
          ∃ r ∈ rules, evaluate_rule f now r email = Except.ok true)) := by
  intro rules
  induction rules with
  | nil =>
    intro results h
    simp only [eval_rules, Except.ok.injEq] at h
    subst h
    simp
  | cons r rest ih =>
    intro results h
    simp only [eval_rules] at h
    cases hr : evaluate_rule f now r email with
    | error e => rw [hr] at h; exact absurd h (by simp)
    | ok b =>
      rw [hr] at h
      cases hrest : eval_rules f now rest email with
      | error e => rw [hrest] at h; exact absurd h (by simp)
      | ok bs =>
        rw [hrest] at h
        simp only [Except.ok.injEq] at h
        subst h
        obtain ⟨iha, ihe⟩ := ih bs hrest
        constructor
        · simp [List.all_cons, iha, hr]
        · simp [List.any_cons, ihe, hr]

lemma eval_rules_error_of_mem (f : String → Int) (now : Int) (email : Email) :
    ∀ (rules : List Rule),
      (∃ r ∈ rules, ∃ e, evaluate_rule f now r email = Except.error e) →
      ∃ e, eval_rules f now rules email = Except.error e := by
  intro rules
  induction rules with
  | nil => rintro ⟨r, hr, _⟩; exact absurd hr (List.not_mem_nil r)
  | cons r rest ih =>
    rintro ⟨r0, hr0, e0, he0⟩
    rcases List.mem_cons.mp hr0 with h | h
    · subst h
      exact ⟨e0, by simp only [eval_rules, he0]⟩
    · cases hr : evaluate_rule f now r email with
      | error e => exact ⟨e, by simp only [eval_rules, hr]⟩
      | ok b =>
        obtain ⟨e1, he1⟩ := ih ⟨r0, h, e0, he0⟩
        exact ⟨e1, by simp only [eval_rules, hr, he1]⟩

/-- C1: `apply_rules` returns the rule set's action list unchanged (same
order) exactly when the rule set matches and the empty list otherwise;
with combine mode `all` it matches iff every predicate evaluates true
(vacuously for an empty rule list), with `any` iff at least one does
(vacuously not for an empty rule list). -/
theorem apply_rules_resolution (f : String → Int) (now : Int) (rs : RuleSet)
    (email : Email) (results : List Bool)
    (h : eval_rules f now rs.rules email = Except.ok results) :
    apply_rules f now rs email =
      Except.ok (if ruleset_matches rs.rule_predicate results then rs.actions else []) ∧
    (rs.rule_predicate = RulePredicate.all →
      (ruleset_matches rs.rule_predicate results = true ↔
        ∀ r ∈ rs.rules, evaluate_rule f now r email = Except.ok true)) ∧
    (rs.rule_predicate = RulePredicate.any →
      (ruleset_matches rs.rule_predicate results = true ↔
        ∃ r ∈ rs.rules, evaluate_rule f now r email = Except.ok true)) ∧
    (rs.rules = [] → ruleset_matches RulePredicate.all results = true ∧
      ruleset_matches RulePredicate.any results = false) := by
  obtain ⟨hall, hany⟩ := eval_rules_ok_iff f now email rs.rules results h
  refine ⟨?_, fun hp => by rw [hp]; exact hall, fun hp => by rw [hp]; exact hany, ?_⟩
  · unfold apply_rules
    rw [h]
    cases hrp : rs.rule_predicate with
    | all => cases hm : results.all fun b => b <;> simp [ruleset_matches, hm]
    | any => cases hm : results.any fun b => b <;> simp [ruleset_matches, hm]
  · intro hnil
    rw [hnil] at h
    simp only [eval_rules, Except.ok.injEq] at h
    subst h
    simp [ruleset_matches]

/-- C2: string predicates compare case-insensitively, lower-casing both
the comparand and the field value; `contains` holds iff the lowered
comparand is a substring of the lowered field value, `equals` iff the
lowered strings are identical; in particular a `contains "EXAMPLE"`
predicate on the sender matches an email sent by `user@example.com`. -/
theorem evaluate_string_rule_case_insensitive :
    (∀ (fn : FieldName) (v fv : String),
      evaluate_string_rule ⟨fn, .strP .contains, v⟩ fv = Except.ok true ↔
        (pyLower v).toList <:+: (pyLower fv).toList) ∧
    (∀ (fn : FieldName) (v fv : String),
      evaluate_string_rule ⟨fn, .strP .equals, v⟩ fv = Except.ok true ↔
        pyLower v = pyLower fv) ∧
    (∀ (f : String → Int) (now : Int),
      evaluate_rule f now ⟨.sender, .strP .contains, "EXAMPLE"⟩
        ⟨"1", "user@example.com", "", "", "", ""⟩ = Except.ok true) := by
  refine ⟨?_, ?_, ?_⟩
  · intro fn v fv
    simp [evaluate_string_rule, py_in_iff]
  · intro fn v fv
    simp [evaluate_string_rule]
  · intro f now
    rw [evaluate_rule_of_ne_received_time _ _ _ _ (by decide)]
    decide

/-- C3: `does_not_contain` and `does_not_equal` are the exact boolean
negations of `contains` and `equals` on every comparand/field-value
pair. -/
theorem string_negation_pairs (fn : FieldName) (v fv : String) :
    evaluate_string_rule ⟨fn, .strP .does_not_contain, v⟩ fv =
      Except.map (fun b => !b) (evaluate_string_rule ⟨fn, .strP .contains, v⟩ fv) ∧
    evaluate_string_rule ⟨fn, .strP .does_not_equal, v⟩ fv =
      Except.map (fun b => !b) (evaluate_string_rule ⟨fn, .strP .equals, v⟩ fv) := by
  constructor <;> simp [evaluate_string_rule, Except.map, bne]

/-- C4: date predicates compare the email's age strictly against the
parsed duration: `is_less_than` holds iff `age < duration`,
`is_greater_than` iff `age > duration`, and both fail when the age equals
the duration. -/
theorem evaluate_date_rule_strict (f : String → Int) (now : Int)
    (fn : FieldName) (v fv : String) (d : Int)
    (hd : parse_duration v = Except.ok d) :
    (evaluate_date_rule f now ⟨fn, .dateP .is_less_than, v⟩ fv =
      Except.ok (decide (now - f fv < d))) ∧
    (evaluate_date_rule f now ⟨fn, .dateP .is_greater_than, v⟩ fv =
      Except.ok (decide (d < now - f fv))) ∧
    (now - f fv = d →
      evaluate_date_rule f now ⟨fn, .dateP .is_less_than, v⟩ fv = Except.ok false ∧
      evaluate_date_rule f now ⟨fn, .dateP .is_greater_than, v⟩ fv = Except.ok false) := by
  refine ⟨?_, ?_, ?_⟩
  · simp [evaluate_date_rule, hd]
  · simp [evaluate_date_rule, hd, gt_iff_lt]
  · intro he
    simp [evaluate_date_rule, hd, he, gt_iff_lt]

/-- C5: a comparand whose unit piece starts with `day` yields a duration
of `amount` days, one starting with `month` yields `amount * 30` days,
and the comparand `1 months` evaluates identically to `30 days` under
every date predicate, every clock and every email field value. -/
theorem month_unit_thirty_days (value amount_str u : String)
    (rest : List String) (n : Int)
    (h1 : pySplit value = amount_str :: u :: rest)
    (h2 : pyParseInt amount_str = some n) :
    (pyStartswith u "day" = true →
      parse_duration value = Except.ok (n * secondsPerDay)) ∧
    (pyStartswith u "month" = true →
      parse_duration value = Except.ok (n * 30 * secondsPerDay)) ∧
    (∀ (f : String → Int) (now : Int) (fn : FieldName) (p : DatePredicate)
      (fv : String),
      evaluate_date_rule f now ⟨fn, .dateP p, "1 months"⟩ fv =
        evaluate_date_rule f now ⟨fn, .dateP p, "30 days"⟩ fv) := by
  refine ⟨?_, ?_, ?_⟩
  · intro hday
    simp [parse_duration, h1, h2, hday]
  · intro hmonth
    have hnotday : pyStartswith u "day" = false := by
      simp only [pyStartswith, String.toList] at hmonth ⊢
      cases hu : u.data with
      | nil => rw [hu] at hmonth; simp [listStartsWith] at hmonth
      | cons c cs =>
        rw [hu] at hmonth
        have hc : c = 'm' := by
          have hpre := (listStartsWith_iff (c :: cs) "month".data).mp hmonth
          rcases List.cons_prefix_cons.mp hpre with ⟨hc, _⟩
          exact hc.symm
        subst hc
        simp [listStartsWith]
    simp [parse_duration, h1, h2, hnotday, hmonth]
  · intro f now fn p fv
    have : parse_duration "1 months" = parse_duration "30 days" := by decide
    simp [evaluate_date_rule, this]

/-- C6: when any rule in the set evaluates to a configuration error (a
mismatched predicate kind or an unrecognized time unit), `apply_rules`
propagates an error instead of returning an action list, no matter what
the other rules evaluate to. -/
theorem apply_rules_propagates_errors (f : String → Int) (now : Int)
    (rs : RuleSet) (email : Email)
    (h : ∃ r ∈ rs.rules, ∃ e, evaluate_rule f now r email = Except.error e) :
    ∃ e, apply_rules f now rs email = Except.error e := by
  obtain ⟨e, he⟩ := eval_rules_error_of_mem f now email rs.rules h
  exact ⟨e, by simp only [apply_rules, he]⟩

/-- Witness for C1: the sample rule set of the repository's tests matched
against the sample email returns both actions in order. -/
theorem apply_rules_resolution_witness :
    apply_rules (fun _ => 0) 0
      ⟨[⟨.sender, .strP .contains, "example.com"⟩,
        ⟨.subject, .strP .contains, "important"⟩], .all,
        [⟨.mark_as_read, none⟩, ⟨.move_to_mailbox, some "Important"⟩]⟩
      ⟨"123", "sender@example.com", "recipient@test.com",
        "Hello, this is the message body.", "2024-01-01T00:00:00+00:00",
        "This is an important email"⟩ =
      Except.ok [⟨.mark_as_read, none⟩, ⟨.move_to_mailbox, some "Important"⟩] := by
  have h := apply_rules_resolution (fun _ => 0) 0
    ⟨[⟨.sender, .strP .contains, "example.com"⟩,
      ⟨.subject, .strP .contains, "important"⟩], .all,
      [⟨.mark_as_read, none⟩, ⟨.move_to_mailbox, some "Important"⟩]⟩
    ⟨"123", "sender@example.com", "recipient@test.com",
      "Hello, this is the message body.", "2024-01-01T00:00:00+00:00",
      "This is an important email"⟩
    [true, true] (by decide)
  exact h.1.trans (by decide)

/-- Witness for C4: against a `7 days` comparand, an email aged 5 days is
`is_less_than` and not `is_greater_than`, and one aged 10 days is
`is_greater_than` and not `is_less_than`. -/
theorem evaluate_date_rule_strict_witness :
    evaluate_date_rule (fun _ => -(5 * 86400)) 0
      ⟨.received_time, .dateP .is_less_than, "7 days"⟩ "t" = Except.ok true ∧
    evaluate_date_rule (fun _ => -(5 * 86400)) 0
      ⟨.received_time, .dateP .is_greater_than, "7 days"⟩ "t" = Except.ok false ∧
    evaluate_date_rule (fun _ => -(10 * 86400)) 0
      ⟨.received_time, .dateP .is_less_than, "7 days"⟩ "t" = Except.ok false ∧
    evaluate_date_rule (fun _ => -(10 * 86400)) 0
      ⟨.received_time, .dateP .is_greater_than, "7 days"⟩ "t" = Except.ok true := by
  have h5 := evaluate_date_rule_strict (fun _ => -(5 * 86400)) 0
    FieldName.received_time "7 days" "t" 604800 (by decide)
  have h10 := evaluate_date_rule_strict (fun _ => -(10 * 86400)) 0
    FieldName.received_time "7 days" "t" 604800 (by decide)
  exact ⟨h5.1.trans (by decide), h5.2.1.trans (by decide),
    h10.1.trans (by decide), h10.2.1.trans (by decide)⟩

/-- Witness for C5: `2 months` parses to a 60-day duration, and the
`1 months` / `30 days` comparands evaluate identically. -/
theorem month_unit_thirty_days_witness :
    parse_duration "2 months" = Except.ok 5184000 ∧
    evaluate_date_rule (fun _ => 0) 0
      ⟨.received_time, .dateP .is_less_than, "1 months"⟩ "x" =
      evaluate_date_rule (fun _ => 0) 0
        ⟨.received_time, .dateP .is_less_than, "30 days"⟩ "x" := by
  have h := month_unit_thirty_days "2 months" "2" "months" [] 2 (by decide) (by decide)
  exact ⟨(h.2.1 (by decide)).trans (by decide),
    h.2.2 (fun _ => 0) 0 .received_time .is_less_than "x"⟩

/-- Witness for C6: an `any` rule set whose first rule already matches
still propagates the second rule's unknown-unit error. -/
theorem apply_rules_propagates_errors_witness :
    ∃ e, apply_rules (fun _ => 0) 0
      ⟨[⟨.sender, .strP .contains, "a"⟩,
        ⟨.received_time, .dateP .is_less_than, "1 parsecs"⟩], .any,
        [⟨.mark_as_read, none⟩]⟩
      ⟨"9", "abc@x.com", "", "", "2024-01-01T00:00:00+00:00", ""⟩ =
      Except.error e := by
  apply apply_rules_propagates_errors
  exact ⟨⟨.received_time, .dateP .is_less_than, "1 parsecs"⟩, by decide,
    EvalError.invalidTimeUnit "parsecs", by decide⟩

/-- Counterexample for C7: when `labels().list()` raises, the label id is
`None`, but the move is not merely skipped: the return-type validation on
`get_or_create_label` raises, the trace of issued `modify` calls is empty
and the trailing `mark_as_read` action is never attempted. -/
theorem execute_actions_not_lenient :
    get_or_create_label
      ⟨.error ⟨"HttpError"⟩, fun _ => .error ⟨"HttpError"⟩⟩ "Important" = none ∧
    execute_actions ⟨.error ⟨"HttpError"⟩, fun _ => .error ⟨"HttpError"⟩⟩
      ⟨"123", "s", "r", "m", "t", "subj"⟩
      [⟨.move_to_mailbox, some "Important"⟩, ⟨.mark_as_read, none⟩] =
      ([], some .validationError) := by
  constructor <;> rfl

/-- C7 (amended): when label lookup/creation for a `move_to_mailbox`
action fails with a provider error, `get_or_create_label` returns a null
label id, the return validation then raises, and execution of the action
list aborts: neither that move's `modify` call nor any remaining action
is attempted. -/
theorem execute_actions_aborts_on_label_failure (service : MailService)
    (email : Email) (a : Action) (rest : List Action) (fname : String)
    (h1 : a.action_type = ActionType.move_to_mailbox)
    (h2 : a.folder_name = some fname)
    (h3 : get_or_create_label service fname = none) :
    execute_actions service email (a :: rest) =
      ([], some PyError.validationError) := by
  obtain ⟨t, fn⟩ := a
  simp only at h1 h2
  subst h1
  subst h2
  simp only [execute_actions, get_or_create_label_checked, h3]

/-- Witness for the amended C7. -/
theorem execute_actions_aborts_on_label_failure_witness :
    execute_actions ⟨.error ⟨"boom"⟩, fun _ => .error ⟨"boom"⟩⟩
      ⟨"9", "s", "r", "m", "t", "subj"⟩
      [⟨.move_to_mailbox, some "Work"⟩, ⟨.mark_as_unread, none⟩] =
      ([], some PyError.validationError) :=
  execute_actions_aborts_on_label_failure _ _ _ _ "Work" rfl rfl rfl

/-- C8: rule evaluation is a pure function of its inputs; in particular a
rule set containing no `received_time` predicate resolves to the same
action list under any two clock readings and any two timestamp parsers,
and string-field rules never consult the clock at all. -/
theorem apply_rules_clock_independent (f1 f2 : String → Int) (n1 n2 : Int)
    (rs : RuleSet) (email : Email)
    (h : ∀ r ∈ rs.rules, r.field_name ≠ FieldName.received_time) :
    apply_rules f1 n1 rs email = apply_rules f2 n2 rs email ∧
    ∀ r : Rule, r.field_name ≠ FieldName.received_time →
      evaluate_rule f1 n1 r email =
        evaluate_string_rule r (getField email r.field_name) := by
  constructor
  · unfold apply_rules
    rw [eval_rules_clock_free f1 f2 n1 n2 email rs.rules h]
  · intro r hr
    exact evaluate_rule_of_ne_received_time f1 n1 r email hr

/-- Witness for C8. -/
theorem apply_rules_clock_independent_witness :
    apply_rules (fun _ => 5) 17
      ⟨[⟨.subject, .strP .equals, "Hi"⟩], .all, [⟨.mark_as_unread, none⟩]⟩
      ⟨"1", "a", "b", "c", "d", "Hi"⟩ =
    apply_rules (fun _ => -3) 99
      ⟨[⟨.subject, .strP .equals, "Hi"⟩], .all, [⟨.mark_as_unread, none⟩]⟩
      ⟨"1", "a", "b", "c", "d", "Hi"⟩ :=
  (apply_rules_clock_independent (fun _ => 5) (fun _ => -3) 17 99
    ⟨[⟨.subject, .strP .equals, "Hi"⟩], .all, [⟨.mark_as_unread, none⟩]⟩
    ⟨"1", "a", "b", "c", "d", "Hi"⟩ (by decide)).1

/-- C9: the `Rule` model accepts a date predicate on a text field, and for
every email such a rule reaches the string evaluator and raises the
invalid-string-predicate `ValueError` at evaluation time. -/
theorem date_predicate_on_text_field (f : String → Int) (now : Int)
    (fn : FieldName) (p : DatePredicate) (v : String) (email : Email)
    (h : fn ≠ FieldName.received_time) :
    evaluate_rule f now ⟨fn, .dateP p, v⟩ email =
      evaluate_string_rule ⟨fn, .dateP p, v⟩ (getField email fn) ∧
    evaluate_rule f now ⟨fn, .dateP p, v⟩ email =
      Except.error (EvalError.invalidStringPredicate (.dateP p)) := by
  have h1 := evaluate_rule_of_ne_received_time f now ⟨fn, .dateP p, v⟩ email h
  exact ⟨h1, h1.trans rfl⟩

/-- Witness for C9. -/
theorem date_predicate_on_text_field_witness :
    evaluate_rule (fun _ => 0) 0 ⟨.sender, .dateP .is_less_than, "7 days"⟩
      ⟨"1", "a@b.c", "", "", "2024-01-01T00:00:00+00:00", ""⟩ =
      Except.error (EvalError.invalidStringPredicate (.dateP .is_less_than)) :=
  (date_predicate_on_text_field (fun _ => 0) 0 .sender .is_less_than "7 days"
    ⟨"1", "a@b.c", "", "", "2024-01-01T00:00:00+00:00", ""⟩ (by decide)).2

end GmailRules

namespace GmailFetch

/-- An entry of the `messages` array of a `messages().list()` response. -/
structure MessageRef where
  id : String
deriving DecidableEq

/-- One `messages().list()` response: the message array (absent key
modelled as the empty list, matching `results.get("messages", [])`) and
the optional `nextPageToken`. -/
structure ListResponse where
  messages : List MessageRef
  nextPageToken : Option String
deriving DecidableEq

/-- The `Email` model of `gmail_fetch.py`; `received_time` is a parsed
timestamp there, modelled in integer seconds. -/
structure Email where
  message_id : String
  sender : String
  recipient : String
  message : String
  received_time : Int
  subject : String
deriving DecidableEq

/-- Model of a Python slice `l[:k]` for an arbitrary integer `k`: for
`0 ≤ k` the first `k` elements; for negative `k` all but the last `-k`
elements (clamped at the empty list). -/
def pySlice (k : Int) (l : List α) : List α :=
  if 0 ≤ k then l.take k.toNat else l.take ((l.length : Int) + k).toNat

/-- The paging loop of `fetch_emails` (lines 28-36): while the current
response has a `nextPageToken` and fewer than `max_emails` messages are
accumulated, fetch the next response and extend.  The provider's
successive responses are the list `more`, consumed in order; the loop
also stops when the modelled response sequence is exhausted. -/
def accumulate_messages (max_emails : Int) (messages : List MessageRef)
    (results : ListResponse) (more : List ListResponse) : List MessageRef :=
  match results.nextPageToken, more with
  | some _, next :: rest =>
    if (messages.length : Int) < max_emails then
      accumulate_messages max_emails (messages ++ next.messages) next rest
    else messages
  | some _, [] => messages
  | none, _ => messages

/-- `fetch_emails(service, max_emails, user_id)`: accumulate message
references by paging, truncate with `messages[:max_emails]`, then fetch
each message's details.  The per-message detail retrieval and header
parsing (lines 41-80) produce exactly one `Email` per message reference
and are abstracted as the oracle `get_detail`. -/
def fetch_emails (get_detail : String → Email) (first : ListResponse)
    (more : List ListResponse) (max_emails : Int) : List Email :=
  let messages := accumulate_messages max_emails first.messages first more
  let truncated := pySlice max_emails messages
  truncated.map (fun m => get_detail m.id)

/-- Counterexample for C10: with `max_emails = -1` and a single-page
response holding one message, `fetch_emails` returns a list whose length
(zero) exceeds `max_emails` — the Python slice `messages[:max_emails]`
does not bound length by a negative bound. -/
theorem fetch_emails_negative_max_counterexample :
    ¬ (((fetch_emails (fun i => ⟨i, "", "", "", 0, ""⟩)
      ⟨[⟨"m1"⟩], none⟩ [] (-1)).length : Int) ≤ -1) := by
  decide

/-- C10 (amended): for every sequence of provider responses and every
non-negative `max_emails`, the accumulated message list is truncated to
its first `max_emails` entries before detail retrieval, so the returned
list never holds more than `max_emails` emails. -/
theorem fetch_emails_length_le_max (get_detail : String → Email)
    (first : ListResponse) (more : List ListResponse) (max_emails : Int)
    (h : 0 ≤ max_emails) :
    ((fetch_emails get_detail first more max_emails).length : Int) ≤
      max_emails := by
  unfold fetch_emails
  simp only [List.length_map, pySlice, if_pos h, List.length_take]
  omega

/-- Witness for the amended C10. -/
theorem fetch_emails_length_le_max_witness :
    ((fetch_emails (fun i => ⟨i, "", "", "", 0, ""⟩)
      ⟨[⟨"a"⟩, ⟨"b"⟩, ⟨"c"⟩], none⟩ [] 2).length : Int) ≤ 2 :=
  fetch_emails_length_le_max (fun i => ⟨i, "", "", "", 0, ""⟩)
    ⟨[⟨"a"⟩, ⟨"b"⟩, ⟨"c"⟩], none⟩ [] 2 (by decide)

end GmailFetch
